import Mathlib

/- Formal model of the banjo-clawhammer audio engine and tab generator.

   The definitions below are a shallow embedding of the JavaScript source:
   the pitch mapper and the Karplus-Strong string synthesizer over exact
   reals, the tab generator over strings, and the look-ahead scheduler
   engine (playSong / scheduler / scheduleNote / nextNote / stopSong) as an
   explicit state machine over rationals with a queue of pending timeouts.
   Wall-clock time and the audio-context clock advance together; the
   environment drives the machine by starting/stopping playback, advancing
   the clock, and firing due timeouts. -/

/-- Open-string MIDI notes, data-array order d, B, G, D, g (source: OPEN_MIDI). -/
def OPEN_MIDI : List ℕ := [74, 71, 67, 62, 79]

/-- Source midiToFreq: 440 * 2 ^ ((note - 69) / 12). -/
noncomputable def midiToFreq (note : ℝ) : ℝ := 440 * (2 : ℝ) ^ ((note - 69) / 12)

/-- Frequency assigned to a (string index, fret) pair by scheduleNote:
midiToFreq (OPEN_MIDI[str] + fret). -/
noncomputable def pitchToFrequency (str fret : ℕ) : ℝ :=
  midiToFreq ((OPEN_MIDI.getD str 0 + fret : ℕ) : ℝ)

/-- JS Math.round: floor (x + 1/2). -/
noncomputable def jsRound (x : ℝ) : ℤ := ⌊x + 1/2⌋

/-- Delay-line length of pluckString: Math.round (sampleRate / freq). -/
noncomputable def ksBufLen (sampleRate freq : ℝ) : ℤ := jsRound (sampleRate / freq)

/-- Delay-line length as a natural number. -/
noncomputable def ksLen (sampleRate freq : ℝ) : ℕ := (ksBufLen sampleRate freq).toNat

/-- Total samples rendered by pluckString: ceil (sampleRate * 3) + bufLen * 2. -/
noncomputable def ksTotalSamples (sampleRate : ℝ) (bufLen : ℕ) : ℤ :=
  ⌈sampleRate * 3⌉ + (bufLen : ℤ) * 2

/-- Delay-line seed: Math.random() * 2 - 1 at each index. -/
noncomputable def ksSeed (rand : ℕ → ℝ) (i : ℕ) : ℝ := rand i * 2 - 1

/-- One iteration of the Karplus-Strong feedback loop on (delay line, read
pointer): emit delay[ptr], replace it by decay * 0.5 * (delay[ptr] +
delay[next]), advance the pointer circularly. -/
noncomputable def ksStep (decay : ℝ) (L : ℕ) (s : (ℕ → ℝ) × ℕ) : (ℕ → ℝ) × ℕ :=
  (Function.update s.1 s.2 (decay * (1/2) * (s.1 s.2 + s.1 ((s.2 + 1) % L))), (s.2 + 1) % L)

/-- Loop state after n iterations, starting from the seeded delay line. -/
noncomputable def ksState (decay : ℝ) (L : ℕ) (seed : ℕ → ℝ) (n : ℕ) : (ℕ → ℝ) × ℕ :=
  (ksStep decay L)^[n] (seed, 0)

/-- Output sample n: the value at the read pointer before the nth update. -/
noncomputable def ksOut (decay : ℝ) (L : ℕ) (seed : ℕ → ℝ) (n : ℕ) : ℝ :=
  (ksState decay L seed n).1 (ksState decay L seed n).2

/-- Source pluckString as the precomputed output buffer it bakes, sample by
sample (rand abstracts Math.random). -/
noncomputable def pluckString (sampleRate freq decay : ℝ) (rand : ℕ → ℝ) (n : ℕ) : ℝ :=
  ksOut decay (ksLen sampleRate freq) (ksSeed rand) n

/- ================================================================
   TAB GENERATION (source: audio.js generateMeasure, CHORD_LIB)
   ================================================================ -/

/-- A measure grid: 5 rows (strings) of 16 cells (sixteenth positions). -/
abbrev Measure := List (List String)

/-- Source CHORD_LIB fret table, in declaration order. -/
def CHORD_LIB : List (String × List ℕ) :=
  [("G", [0, 0, 0, 0, 0]),
   ("C", [2, 1, 0, 2, 0]),
   ("D", [4, 3, 2, 0, 0]),
   ("D7", [1, 2, 0, 0, 0]),
   ("Em", [0, 0, 0, 2, 0]),
   ("Am", [0, 1, 2, 2, 0])]

/-- The chord names present in CHORD_LIB. -/
def chordNames : List String := CHORD_LIB.map (fun p => p.1)

/-- The all-rest 5 x 16 grid generateMeasure starts from. -/
def emptyGrid : Measure := List.replicate 5 (List.replicate 16 "-")

/-- Write one grid cell (row r, column c). -/
def setCell (g : Measure) (r c : ℕ) (v : String) : Measure :=
  g.set r ((g.getD r []).set c v)

/-- Source generateMeasure. Unknown chord names (on which the source would
throw) yield the empty grid; the theorems only instantiate chords of
CHORD_LIB. -/
def generateMeasure (chordName difficulty : String) (variation : ℕ) : Measure :=
  match CHORD_LIB.lookup chordName with
  | none => emptyGrid
  | some frets =>
    let fd := frets.getD 0 0
    let fB := frets.getD 1 0
    let fG := frets.getD 2 0
    let fD := frets.getD 3 0
    let fg := frets.getD 4 0
    if difficulty == "easy" then
      let m := emptyGrid
      let m := [0, 8].foldl (fun m p =>
        setCell (setCell (setCell (setCell m 0 p (toString fd)) 1 p (toString fB))
          2 p (toString fG)) 3 p (toString fD)) m
      let m := [4, 12].foldl (fun m p => setCell m 4 p (toString fg)) m
      if variation % 2 == 1 then setCell (setCell m 0 8 "-") 1 8 (toString fB) else m
    else
      let m := emptyGrid
      let m := setCell m 0 0 (toString fd)
      let m := setCell m 1 2 (toString fB)
      let m := setCell m 2 2 (toString fG)
      let m := setCell m 4 4 (toString fg)
      let m := if variation % 3 == 0 then setCell m 0 8 (toString fd)
        else if variation % 3 == 1 then
          setCell m 0 8 (toString (if fd == 0 then 2 else fd))
        else setCell m 1 8 (toString fB)
      let m := setCell m 2 10 (toString fG)
      let m := setCell m 4 12 (toString fg)
      if variation % 4 == 0 && fd == 0 then setCell m 0 14 "h2" else m

/-- A generated cell is the rest marker, the hammer-on marker, or a single
decimal digit with value 0..4. -/
def cellOK (s : String) : Bool :=
  s == "-" || s == "h2" || s == "0" || s == "1" || s == "2" || s == "3" || s == "4"

/-- Well-formedness of a generated grid: 5 rows of 16 cells, all cells OK. -/
def measureOK (g : Measure) : Bool :=
  g.length == 5 && g.all (fun row => row.length == 16 && row.all cellOK)

/-- JS parseInt(s, 10) restricted to the decimal-digit-prefix fragment the
scheduler can meet: parse the leading run of digits, NaN (none) if empty. -/
def jsParseInt (s : String) : Option ℕ :=
  let ds := s.toList.takeWhile Char.isDigit
  if ds.isEmpty then none
  else some (ds.foldl (fun n c => n * 10 + (c.toNat - 48)) 0)

/-- The fret-resolution step of scheduleNote on a non-rest cell: fret 2 for
the hammer-on marker, otherwise parseInt (skipped if NaN). -/
def resolveFret (cell : String) : Option ℕ :=
  if cell == "h2" then some 2 else jsParseInt cell

/- ================================================================
   LOOK-AHEAD SCHEDULER ENGINE (source: README engine section)
   ================================================================ -/

/-- Kinds of pending setTimeout callbacks the engine creates: the recurring
scheduler wake-up, and the natural-end drain timeout. -/
inductive TimerKind
  | wake
  | drain
deriving DecidableEq, Repr

/-- One pending setTimeout: its id, its due wall-clock time, its kind. -/
structure PendingTimer where
  id : ℕ
  due : ℚ
  kind : TimerKind
deriving DecidableEq, Repr

/-- Observable events, in emission order: string-synth invocations (pluck),
metronome clicks, completion-callback invocations. Plucks are logged by
MIDI note; the frequency handed to the synthesizer is midiToFreq of it. -/
inductive Event
  | pluck (midi : ℕ) (gain : ℚ) (time : ℚ) (decay : ℚ)
  | click (time : ℚ) (accent : Bool) (pitch : ℚ)
  | callback (cb : ℕ) (wall : ℚ)
deriving DecidableEq, Repr

/-- The playOpts object passed to playSong; absent fields are none. -/
structure PlayOpts where
  enabled : Option Bool
  accentDownbeat : Option Bool
  metroPitch : Option ℚ
  banjoVolume : Option ℚ
  metroVolume : Option ℚ
deriving DecidableEq, Repr

/-- playOpts.enabled === true. -/
def clickEnabledOf (o : PlayOpts) : Bool := o.enabled == some true

/-- playOpts.accentDownbeat !== false. -/
def accentDownbeatOf (o : PlayOpts) : Bool := o.accentDownbeat != some false

/-- The engine's global mutable state, plus wall clock, pending timeouts and
the event log (the latter three model the browser environment). -/
structure Engine where
  now : ℚ
  ctxStart : Option ℚ
  banjoGain : Option ℚ
  metroGain : Option ℚ
  isPlaying : Bool
  currentBpm : ℚ
  currentMeasures : List Measure
  currentPlayOpts : PlayOpts
  masterOnStop : Option ℕ
  nextNoteTime : ℚ
  currentMeasure : ℕ
  currentPos : ℕ
  timerID : Option ℕ
  nextId : ℕ
  timers : List PendingTimer
  events : List Event
  sessionStart : ℕ
deriving DecidableEq, Repr

/-- The audio-context clock: wall time since context creation (0 if none). -/
def ctxTime (s : Engine) : ℚ := s.now - s.ctxStart.getD s.now

/-- Source getAudioCtx: create the context (and the two master gain nodes)
if absent or closed. -/
def getAudioCtx (s : Engine) : Engine :=
  if s.ctxStart.isSome then s
  else { s with ctxStart := some s.now, banjoGain := some 1, metroGain := some 1 }

/-- Source updateAudioSettings: rescale UI volumes and set the master gain
targets; a disabled metronome forces its bus gain to 0. -/
def updateAudioSettings (bVol mVol mPitch : ℚ) (mEnabled mAccent : Bool) (s : Engine) : Engine :=
  let engineBanjoVol := bVol / (1/2) * (13/20)
  let engineMetroVol := mVol / (1/2) * 1
  let actualMetroVol := if mEnabled then engineMetroVol else 0
  { s with
      banjoGain := s.banjoGain.map (fun _ => engineBanjoVol),
      metroGain := s.metroGain.map (fun _ => actualMetroVol) }

/-- The per-string body of scheduleNote's loop: read the cell, resolve the
fret (hammer-on marker is fret 2, unparseable cells are skipped), emit a
pluck with the drone string's special gain/decay on string 4. -/
def pluckCell (measure : Measure) (pos : ℕ) (t : ℚ) (acc : Engine) (str : ℕ) : Engine :=
  let cell := (measure.getD str []).getD pos "-"
  if cell == "-" then acc
  else
    match resolveFret cell with
    | none => acc
    | some fret =>
      let midi := OPEN_MIDI.getD str 0 + fret
      let gain : ℚ := if str == 4 then 35/100 else 45/100
      let dec : ℚ := if str == 4 then 991/1000 else 994/1000
      { acc with events := acc.events ++ [Event.pluck midi gain t dec] }

/-- Source scheduleNote: metronome click on quarter positions if enabled,
then (bounds permitting) a pluck for every non-silent cell of the column. -/
def scheduleNote (s0 : Engine) (measureIdx pos : ℕ) (t : ℚ) : Engine :=
  let s := getAudioCtx s0
  let opts := s.currentPlayOpts
  let clickEvt := Event.click t (accentDownbeatOf opts && pos / 4 == 0) (opts.metroPitch.getD 1)
  let s := if pos % 4 == 0 && clickEnabledOf opts then
      { s with events := s.events ++ [clickEvt] }
    else s
  if s.currentMeasures.length ≤ measureIdx then s
  else
    let measure := s.currentMeasures.getD measureIdx []
    (List.range 5).foldl (pluckCell measure pos t) s

/-- Source nextNote: advance the next-event time by one sixteenth at the
current tempo and advance the grid position, wrapping 16 to 0. -/
def nextNote (s : Engine) : Engine :=
  let secondsPerBeat := 60 / s.currentBpm
  let s := { s with nextNoteTime := s.nextNoteTime + (1/4) * secondsPerBeat }
  if s.currentPos + 1 == 16 then
    { s with currentPos := 0, currentMeasure := s.currentMeasure + 1 }
  else { s with currentPos := s.currentPos + 1 }

/-- The scheduling while-loop of source scheduler, with fuel for structural
termination (schedulerFuel always suffices). While the next event time is
inside the look-ahead window: if the timeline is exhausted, arm the
natural-end drain timeout (whose id is discarded) and return without
re-arming the wake-up; otherwise emit the current column and advance. Once
outside the window, re-arm the wake-up timer (LOOKAHEAD = 25 ms). -/
def schedLoop : ℕ → Engine → Engine
  | 0, s => s
  | fuel + 1, s =>
    if s.nextNoteTime < ctxTime s + 1/10 then
      if s.currentMeasures.length ≤ s.currentMeasure then
        let drainTimer : PendingTimer :=
          ⟨s.nextId, s.now + max 0 ((s.nextNoteTime - ctxTime s) + 35/10), TimerKind.drain⟩
        { s with timers := s.timers ++ [drainTimer], nextId := s.nextId + 1 }
      else
        schedLoop fuel (nextNote (scheduleNote s s.currentMeasure s.currentPos s.nextNoteTime))
    else
      let wakeTimer : PendingTimer := ⟨s.nextId, s.now + 1/40, TimerKind.wake⟩
      { s with
          timers := s.timers ++ [wakeTimer],
          timerID := some s.nextId,
          nextId := s.nextId + 1 }

/-- Fuel bound for one scheduler pass: one step per remaining grid position,
plus the terminating check. -/
def schedulerFuel (s : Engine) : ℕ := 16 * s.currentMeasures.length + 17

/-- Source scheduler. -/
def scheduler (s0 : Engine) : Engine :=
  let s := getAudioCtx s0
  schedLoop (schedulerFuel s) s

/-- Source stopSong: clear the running flag, cancel the stored wake-up
timer, and close the audio context (dropping both master gains). The
drain timeout's id was never stored, so it is not cancelled. -/
def stopSong (s : Engine) : Engine :=
  let s1 := { s with isPlaying := false }
  let s2 := match s1.timerID with
    | none => s1
    | some tid => { s1 with timers := s1.timers.filter (fun t => t.id != tid) }
  if s2.ctxStart.isSome then
    { s2 with ctxStart := none, banjoGain := none, metroGain := none }
  else s2

/-- Source playSong: implicit stop if running, (re)create the context,
install the new session, set the first event time 0.1 s ahead of the
audio clock, apply mix settings, and run the first scheduler pass
synchronously. sessionStart marks where this session's log begins. -/
def playSong (allMeasures : List Measure) (bpm : ℚ) (onStop : ℕ) (playOpts : PlayOpts)
    (s0 : Engine) : Engine :=
  let s := if s0.isPlaying then stopSong s0 else s0
  let s := getAudioCtx s
  let s := { s with
      isPlaying := true,
      currentBpm := bpm,
      currentMeasures := allMeasures,
      currentPlayOpts := playOpts,
      masterOnStop := some onStop,
      currentMeasure := 0,
      currentPos := 0,
      nextNoteTime := ctxTime s + 1/10,
      sessionStart := s.events.length }
  let s := updateAudioSettings (playOpts.banjoVolume.getD (1/2)) (playOpts.metroVolume.getD (1/2))
      (playOpts.metroPitch.getD 1) (playOpts.enabled == some true)
      (playOpts.accentDownbeat != some false) s
  scheduler s

/-- Fire a pending timeout if it is due: a wake timer runs scheduler; the
drain callback, if still playing, clears the flag and invokes the current
masterOnStop. -/
def fireTimer (s : Engine) (tid : ℕ) : Engine :=
  match s.timers.find? (fun t => t.id == tid) with
  | none => s
  | some t =>
    if t.due ≤ s.now then
      let s := { s with timers := s.timers.filter (fun u => u.id != tid) }
      match t.kind with
      | TimerKind.wake => scheduler s
      | TimerKind.drain =>
        if s.isPlaying then
          let s := { s with isPlaying := false }
          match s.masterOnStop with
          | some cb => { s with events := s.events ++ [Event.callback cb s.now] }
          | none => s
        else s
    else s

/-- Environment actions driving the engine. -/
inductive Act
  | start (tl : List Measure) (bpm : ℚ) (cb : ℕ) (opts : PlayOpts)
  | stop
  | advance (d : ℚ)
  | fire (tid : ℕ)

/-- One environment step. -/
def stepAct (s : Engine) : Act → Engine
  | Act.start tl bpm cb opts => playSong tl bpm cb opts s
  | Act.stop => stopSong s
  | Act.advance d => { s with now := s.now + d }
  | Act.fire tid => fireTimer s tid

/-- Run a list of environment actions. -/
def run (s : Engine) (acts : List Act) : Engine := acts.foldl stepAct s

/-- The engine's state at page load. -/
def engineInit : Engine :=
  { now := 0, ctxStart := none, banjoGain := none, metroGain := none,
    isPlaying := false, currentBpm := 90, currentMeasures := [],
    currentPlayOpts := ⟨none, none, none, none, none⟩, masterOnStop := none,
    nextNoteTime := 0, currentMeasure := 0, currentPos := 0,
    timerID := none, nextId := 0, timers := [], events := [], sessionStart := 0 }

/-- playOpts with every field absent. -/
def optsNone : PlayOpts := ⟨none, none, none, none, none⟩

/-- The events appended after the current session's start marker. -/
def sessionEvents (s : Engine) : List Event := s.events.drop s.sessionStart

/-- Start time of a sound event; none for callback invocations. -/
def soundTimeOf : Event → Option ℚ
  | Event.pluck _ _ t _ => some t
  | Event.click t _ _ => some t
  | Event.callback _ _ => none

/-- The start times of the sound events of a log, in emission order. -/
def soundTimes (l : List Event) : List ℚ := l.filterMap soundTimeOf

/-- The metronome clicks of a log, in emission order. -/
def clicksOf (l : List Event) : List Event :=
  l.filter (fun e => match e with | Event.click _ _ _ => true | _ => false)

/-- Session invariant backing the timing claims: sound start times are
non-decreasing in emission order, every logged start time is at most the
next event time, and the session marker is inside the log. -/
def SessionInv (s : Engine) : Prop :=
  List.Chain' (· ≤ ·) (soundTimes (sessionEvents s)) ∧
  (∀ q ∈ soundTimes (sessionEvents s), q ≤ s.nextNoteTime) ∧
  s.sessionStart ≤ s.events.length

instance (s : Engine) : Decidable (SessionInv s) := by
  unfold SessionInv; exact inferInstance

/-- A one-measure timeline with every cell silent. -/
def silentMeasure : Measure := List.replicate 5 (List.replicate 16 "-")

/-- A measure whose only notes are open strings 0 and 1 at position 0. -/
def twoNoteMeasure : Measure :=
  [("0" :: List.replicate 15 "-"),
   ("0" :: List.replicate 15 "-"),
   List.replicate 16 "-", List.replicate 16 "-", List.replicate 16 "-"]

/-- Trace for the stale-drain-timer scenario: session 1 (callback 1) is run
to the point where its natural-end drain timeout is pending, a second
session (callback 2) supersedes it, both wake timers fire in due order,
then the stale drain fires at wall time 4.7 while session 2 is running. -/
def staleDrainPrefix : List Act :=
  [Act.start [silentMeasure] 240 1 optsNone,
   Act.advance 2,
   Act.fire 0,
   Act.start [silentMeasure] 240 2 optsNone,
   Act.advance (27/10),
   Act.fire 2]

/-- The same trace continued: the stale drain (id 1) fires, then session 2's
own drain (id 3) comes due and fires. -/
def staleDrainFull : List Act :=
  staleDrainPrefix ++ [Act.fire 1, Act.advance (19/10), Act.fire 3]

/-- Trace for the empty-timeline scenario: start with an empty timeline, let
the wake-up fire, then let the drain timeout come due and fire. -/
def emptyTimelineTrace : List Act :=
  [Act.start [] 240 7 optsNone,
   Act.advance (1/40),
   Act.fire 0,
   Act.advance (143/40),
   Act.fire 1]

/-- Trace for the equal-start-times scenario: one measure with two strings
sounding at position 0; the wake-up fires once and schedules both. -/
def equalTimesTrace : List Act :=
  [Act.start [twoNoteMeasure] 240 1 optsNone,
   Act.advance (1/40),
   Act.fire 0]

/-- Engine state used to witness the scheduleNote timing facts. -/
def engineTwoNote : Engine :=
  { engineInit with currentMeasures := [twoNoteMeasure] }

/-- Engine state with the metronome enabled, used for the click claims. -/
def engineMetro : Engine :=
  { engineInit with currentPlayOpts := ⟨some true, some true, none, none, none⟩ }

/-- The pluck events one pluckCell call appends (empty for rests and
unparseable cells). -/
def pluckCellE (measure : Measure) (pos : ℕ) (t : ℚ) (str : ℕ) : List Event :=
  let cell := (measure.getD str []).getD pos "-"
  if cell == "-" then []
  else
    match resolveFret cell with
    | none => []
    | some fret =>
      let midi := OPEN_MIDI.getD str 0 + fret
      let gain : ℚ := if str == 4 then 35/100 else 45/100
      let dec : ℚ := if str == 4 then 991/1000 else 994/1000
      [Event.pluck midi gain t dec]

/-- The pluck events a whole string loop appends, in loop order. -/
def pluckListE (measure : Measure) (pos : ℕ) (t : ℚ) : List ℕ → List Event
  | [] => []
  | str :: l => pluckCellE measure pos t str ++ pluckListE measure pos t l

/-- The events one scheduleNote call appends: the metronome click when due,
then the column's plucks (none when the measure index is out of range). -/
def scheduleNoteE (s : Engine) (measureIdx pos : ℕ) (t : ℚ) : List Event :=
  (if pos % 4 == 0 && clickEnabledOf s.currentPlayOpts then
    [Event.click t (accentDownbeatOf s.currentPlayOpts && pos / 4 == 0)
      (s.currentPlayOpts.metroPitch.getD 1)]
   else []) ++
  (if s.currentMeasures.length ≤ measureIdx then []
   else pluckListE (s.currentMeasures.getD measureIdx []) pos t (List.range 5))

/- ================================================================
   Theorems.  Pitch mapper (claim C6).
   ================================================================ -/

theorem midiToFreq_pos (n : ℝ) : 0 < midiToFreq n := by
  unfold midiToFreq
  positivity

theorem midiToFreq_succ (n : ℝ) :
    midiToFreq (n + 1) = midiToFreq n * (2 : ℝ) ^ ((1 : ℝ)/12) := by
  unfold midiToFreq
  have h : (n + 1 - 69)/12 = (n - 69)/12 + 1/12 := by ring
  rw [h, Real.rpow_add (by norm_num : (0:ℝ) < 2), mul_assoc]

theorem one_lt_semitone : 1 < (2 : ℝ) ^ ((1 : ℝ)/12) := by
  rw [Real.one_lt_rpow_iff_of_pos (by norm_num : (0:ℝ) < 2)]
  norm_num

/-- C6: for every string index 0-4 and non-negative integer fret, the
frequency computed for (stringIndex, fret) is strictly increasing in fret,
and incrementing fret by one multiplies the frequency by exactly 2^(1/12),
over exact real arithmetic. -/
theorem c6_pitch_monotone_semitone (str : ℕ) (hstr : str < 5) :
    StrictMono (fun fret => pitchToFrequency str fret) ∧
    ∀ fret : ℕ, pitchToFrequency str (fret + 1) =
      pitchToFrequency str fret * (2 : ℝ) ^ ((1 : ℝ)/12) := by
  have hrat : ∀ fret : ℕ, pitchToFrequency str (fret + 1) =
      pitchToFrequency str fret * (2 : ℝ) ^ ((1 : ℝ)/12) := by
    intro f
    unfold pitchToFrequency
    have hc : ((OPEN_MIDI.getD str 0 + (f + 1) : ℕ) : ℝ) =
        ((OPEN_MIDI.getD str 0 + f : ℕ) : ℝ) + 1 := by push_cast; ring
    rw [hc, midiToFreq_succ]
  refine ⟨strictMono_nat_of_lt_succ ?_, hrat⟩
  intro f
  have hpos : 0 < pitchToFrequency str f := midiToFreq_pos _
  calc pitchToFrequency str f
      < pitchToFrequency str f * (2 : ℝ) ^ ((1 : ℝ)/12) :=
        (lt_mul_iff_one_lt_right hpos).mpr one_lt_semitone
    _ = pitchToFrequency str (f + 1) := (hrat f).symm

/-- Witness for C6 at string 0, frets 3 and 4. -/
theorem c6_pitch_monotone_semitone_witness :
    (0 : ℕ) < 5 ∧ pitchToFrequency 0 3 < pitchToFrequency 0 4 ∧
      pitchToFrequency 0 4 = pitchToFrequency 0 3 * (2 : ℝ) ^ ((1 : ℝ)/12) :=
  ⟨by norm_num,
   (c6_pitch_monotone_semitone 0 (by norm_num)).1 (by norm_num : (3:ℕ) < 4),
   (c6_pitch_monotone_semitone 0 (by norm_num)).2 3⟩

/- ================================================================
   Karplus-Strong synthesizer (claim C7).
   ================================================================ -/

theorem ksState_succ (decay : ℝ) (L : ℕ) (seed : ℕ → ℝ) (n : ℕ) :
    ksState decay L seed (n + 1) = ksStep decay L (ksState decay L seed n) := by
  unfold ksState
  exact Function.iterate_succ_apply' _ _ _

theorem ksState_ptr (decay : ℝ) (L : ℕ) (seed : ℕ → ℝ) :
    ∀ n, (ksState decay L seed n).2 = n % L := by
  intro n
  induction n with
  | zero => simp [ksState]
  | succ n ih =>
    rw [ksState_succ]
    show ((ksState decay L seed n).2 + 1) % L = (n + 1) % L
    rw [ih]
    exact (Nat.mod_modEq n L).add_right 1

theorem ksState_stable (decay : ℝ) (L : ℕ) (seed : ℕ → ℝ) (i : ℕ) :
    ∀ (n j : ℕ), (∀ k, n ≤ k → k < n + j → k % L ≠ i) →
      (ksState decay L seed (n + j)).1 i = (ksState decay L seed n).1 i := by
  intro n j
  induction j with
  | zero => intro _; rfl
  | succ j ih =>
    intro h
    have hstep : (ksState decay L seed (n + (j + 1))).1 i =
        (ksState decay L seed (n + j)).1 i := by
      rw [show n + (j + 1) = (n + j) + 1 from rfl, ksState_succ]
      show Function.update (ksState decay L seed (n + j)).1
        (ksState decay L seed (n + j)).2 _ i = _
      rw [ksState_ptr]
      exact Function.update_noteq (Ne.symm (h (n + j) (by omega) (by omega))) _ _
    rw [hstep]
    exact ih (fun k hk1 hk2 => h k hk1 (by omega))

theorem ksOut_seed (decay : ℝ) (L : ℕ) (seed : ℕ → ℝ) (n : ℕ) (hn : n < L) :
    ksOut decay L seed n = seed n := by
  unfold ksOut
  rw [ksState_ptr, Nat.mod_eq_of_lt hn]
  have h := ksState_stable decay L seed n 0 n
    (fun k hk1 hk2 => by
      rw [Nat.mod_eq_of_lt (by omega : k < L)]; omega)
  simpa using h

theorem mod_add_ne {L n j : ℕ} (hL : 2 ≤ L) (hj1 : 1 ≤ j) (hjL : j < L) :
    (n + j) % L ≠ n % L := by
  intro h
  have hmodeq : n + j ≡ n [MOD L] := h
  have h2 : (L : ℤ) ∣ (n : ℤ) - ((n : ℤ) + (j : ℤ)) := by
    have := hmodeq.dvd
    push_cast at this
    exact this
  have h3 : (L : ℤ) ∣ (j : ℤ) := by
    have he : (n : ℤ) - ((n : ℤ) + (j : ℤ)) = -(j : ℤ) := by ring
    rw [he] at h2
    exact dvd_neg.mp h2
  have h4 : L ∣ j := Int.ofNat_dvd.mp (by exact_mod_cast h3)
  have := Nat.le_of_dvd (by omega) h4
  omega

theorem ksOut_recurrence (decay : ℝ) (L : ℕ) (seed : ℕ → ℝ) (hL : 2 ≤ L) (n : ℕ) :
    ksOut decay L seed (n + L) =
      decay * (1/2) * (ksOut decay L seed n + ksOut decay L seed (n + 1)) := by
  have hptr := ksState_ptr decay L seed
  have hupdate : ∀ m i, i ≠ m % L →
      (ksState decay L seed (m + 1)).1 i = (ksState decay L seed m).1 i := by
    intro m i hi
    rw [ksState_succ]
    show Function.update (ksState decay L seed m).1 (ksState decay L seed m).2 _ i = _
    rw [hptr m]
    exact Function.update_noteq hi _ _
  have hout1 : ksOut decay L seed (n + 1) =
      (ksState decay L seed n).1 ((n + 1) % L) := by
    unfold ksOut
    rw [hptr (n + 1)]
    exact hupdate n ((n + 1) % L) (mod_add_ne hL (le_refl 1) (by omega))
  have hstab : (ksState decay L seed (n + L)).1 (n % L) =
      (ksState decay L seed (n + 1)).1 (n % L) := by
    have h := ksState_stable decay L seed (n % L) (n + 1) (L - 1)
      (fun k hk1 hk2 => by
        have hk : k = n + (k - n) := by omega
        rw [hk]
        exact mod_add_ne hL (by omega) (by omega))
    rw [show n + 1 + (L - 1) = n + L by omega] at h
    exact h
  have h1 : (n % L + 1) % L = (n + 1) % L := (Nat.mod_modEq n L).add_right 1
  have hval : (ksState decay L seed (n + 1)).1 (n % L) =
      decay * (1/2) * ((ksState decay L seed n).1 (n % L) +
        (ksState decay L seed n).1 ((n + 1) % L)) := by
    rw [ksState_succ]
    show Function.update (ksState decay L seed n).1 (ksState decay L seed n).2 _ _ = _
    rw [hptr n, Function.update_same, h1]
  have houtn : ksOut decay L seed n = (ksState decay L seed n).1 (n % L) := by
    unfold ksOut
    rw [hptr n]
  have houtnL : ksOut decay L seed (n + L) =
      (ksState decay L seed (n + L)).1 (n % L) := by
    unfold ksOut
    rw [hptr (n + L), Nat.add_mod_right]
  rw [houtnL, hstab, hval, houtn, hout1]

/-- C7: for a string-synthesizer call with frequency f at sample rate sr,
the delay-line length is round(sr / f); the seed values lie in [-1, 1];
the rendered output replays the seed for the first bufLen samples and then
satisfies the two-tap lowpass-and-decay recurrence out(n + L) =
decay * 0.5 * (out n + out (n+1)), i.e. each sample is the value at the
circular read pointer, which is replaced by decay * 0.5 * (current + next)
before the pointer advances; and the precomputed buffer covers at least
3 seconds of output. -/
theorem c7_karplus_strong (sampleRate freq decay : ℝ) (rand : ℕ → ℝ)
    (hrand : ∀ i, 0 ≤ rand i ∧ rand i < 1)
    (hsr : 0 < sampleRate)
    (hL : 2 ≤ ksLen sampleRate freq) :
    ksBufLen sampleRate freq = jsRound (sampleRate / freq) ∧
    (∀ i, -1 ≤ ksSeed rand i ∧ ksSeed rand i ≤ 1) ∧
    (∀ n, n < ksLen sampleRate freq →
      pluckString sampleRate freq decay rand n = ksSeed rand n) ∧
    (∀ n, pluckString sampleRate freq decay rand (n + ksLen sampleRate freq) =
      decay * (1/2) * (pluckString sampleRate freq decay rand n +
        pluckString sampleRate freq decay rand (n + 1))) ∧
    3 * sampleRate ≤ (ksTotalSamples sampleRate (ksLen sampleRate freq) : ℝ) := by
  refine ⟨rfl, ?_, ?_, ?_, ?_⟩
  · intro i
    have h := hrand i
    unfold ksSeed
    constructor <;> nlinarith [h.1, h.2]
  · intro n hn
    exact ksOut_seed decay _ _ n hn
  · intro n
    exact ksOut_recurrence decay _ _ hL n
  · unfold ksTotalSamples
    push_cast
    have hceil : sampleRate * 3 ≤ (⌈sampleRate * 3⌉ : ℝ) := Int.le_ceil _
    have hlen : (0 : ℝ) ≤ (ksLen sampleRate freq : ℝ) := by positivity
    nlinarith

/-- Witness for C7 at sample rate 2, frequency 1 (delay-line length 2),
decay 1/2, and the all-zero random source. -/
theorem c7_karplus_strong_witness :
    (∀ i : ℕ, 0 ≤ (fun _ : ℕ => (0:ℝ)) i ∧ (fun _ : ℕ => (0:ℝ)) i < 1) ∧
    (0:ℝ) < 2 ∧ 2 ≤ ksLen 2 1 ∧
    (∀ n, n < ksLen 2 1 →
      pluckString 2 1 (1/2) (fun _ : ℕ => (0:ℝ)) n = ksSeed (fun _ : ℕ => (0:ℝ)) n) ∧
    3 * (2:ℝ) ≤ (ksTotalSamples 2 (ksLen 2 1) : ℝ) := by
  have hrand : ∀ i : ℕ, 0 ≤ (fun _ : ℕ => (0:ℝ)) i ∧ (fun _ : ℕ => (0:ℝ)) i < 1 := by
    intro i; norm_num
  have hsr : (0:ℝ) < 2 := by norm_num
  have hbuf : ksBufLen 2 1 = 2 := by
    unfold ksBufLen jsRound
    rw [show (2:ℝ)/1 + 1/2 = 5/2 by norm_num]
    rw [Int.floor_eq_iff]
    norm_num
  have hL : 2 ≤ ksLen 2 1 := by
    unfold ksLen
    rw [hbuf]
    norm_num
  have h := c7_karplus_strong 2 1 (1/2) (fun _ : ℕ => (0:ℝ)) hrand hsr hL
  exact ⟨hrand, hsr, hL, h.2.2.1, h.2.2.2.2⟩

/- ================================================================
   Tab generation (claim C10).
   ================================================================ -/

theorem generateMeasure_mod12 (c dd : String) (v : ℕ) :
    generateMeasure c dd v = generateMeasure c dd (v % 12) := by
  have h2 : v % 12 % 2 = v % 2 := Nat.mod_mod_of_dvd v (by norm_num)
  have h3 : v % 12 % 3 = v % 3 := Nat.mod_mod_of_dvd v (by norm_num)
  have h4 : v % 12 % 4 = v % 4 := Nat.mod_mod_of_dvd v (by norm_num)
  unfold generateMeasure
  simp only [h2, h3, h4]

theorem generateMeasure_difficulty (c dd : String) (v : ℕ) :
    generateMeasure c dd v =
      generateMeasure c (if dd == "easy" then "easy" else "medium") v := by
  cases h : dd == "easy" <;> simp only [generateMeasure, h] <;> rfl

theorem generateMeasure_finite_check :
    ∀ c ∈ chordNames, ∀ dd ∈ ["easy", "medium"], ∀ r ∈ List.range 12,
      measureOK (generateMeasure c dd r) = true := by decide

theorem midiToFreq_le_of_le {m : ℝ} (hm : m ≤ 83) :
    midiToFreq m ≤ 440 * (2 : ℝ) ^ ((14 : ℝ)/12) := by
  unfold midiToFreq
  apply mul_le_mul_of_nonneg_left _ (by norm_num : (0:ℝ) ≤ 440)
  rw [Real.rpow_le_rpow_left_iff (by norm_num : (1:ℝ) < 2)]
  linarith

theorem rpow_fourteen_twelfths_lt : (2 : ℝ) ^ ((14 : ℝ)/12) < 9/4 := by
  by_contra hcon
  push_neg at hcon
  have hpow : ((9:ℝ)/4) ^ (12:ℕ) ≤ ((2:ℝ) ^ ((14:ℝ)/12)) ^ (12:ℕ) :=
    pow_le_pow_left (by norm_num) hcon 12
  have hval : ((2:ℝ) ^ ((14:ℝ)/12)) ^ (12:ℕ) = 2 ^ (14:ℕ) := by
    rw [← Real.rpow_natCast ((2:ℝ) ^ ((14:ℝ)/12)) 12,
      ← Real.rpow_mul (by norm_num : (0:ℝ) ≤ 2)]
    rw [show (14:ℝ)/12 * (12:ℕ) = ((14:ℕ):ℝ) by push_cast; ring]
    rw [Real.rpow_natCast]
  rw [hval] at hpow
  norm_num at hpow

theorem openMidi_le (str : ℕ) (h : str < 5) : OPEN_MIDI.getD str 0 ≤ 79 := by
  interval_cases str <;> decide

theorem bufLen_ge_one (str fret : ℕ) (hs : str < 5) (hf : fret ≤ 4)
    (sampleRate : ℝ) (hsr : 495 ≤ sampleRate) :
    1 ≤ ksBufLen sampleRate (pitchToFrequency str fret) := by
  have hfreq_pos : 0 < pitchToFrequency str fret := midiToFreq_pos _
  have hm : ((OPEN_MIDI.getD str 0 + fret : ℕ) : ℝ) ≤ 83 := by
    have h1 : OPEN_MIDI.getD str 0 + fret ≤ 83 := by
      have := openMidi_le str hs
      omega
    exact_mod_cast Nat.cast_le.mpr h1
  have hub : pitchToFrequency str fret ≤ 440 * (2:ℝ) ^ ((14:ℝ)/12) :=
    midiToFreq_le_of_le hm
  have hub2 : pitchToFrequency str fret < 990 := by
    have := rpow_fourteen_twelfths_lt
    nlinarith
  unfold ksBufLen jsRound
  rw [Int.le_floor]
  have hdiv : (1:ℝ)/2 ≤ sampleRate / pitchToFrequency str fret := by
    rw [le_div_iff hfreq_pos]
    nlinarith
  push_cast
  linarith

/-- C10: every grid generateMeasure returns, for any chord of the chord
table, any difficulty string, and any variation index, is 5 rows of 16
cells, each cell the silent marker, the hammer-on marker, or a digit 0-4;
every such non-silent cell resolves to a fret (at most 4), so the
scheduler's unparseable-fret skip branch is unreachable on generated data;
and every resulting delay-line length is at least 1 (at any sample rate of
at least 495 Hz, which bounds the highest reachable pitch from above). -/
theorem c10_generated_grid_wellformed :
    (∀ c ∈ chordNames, ∀ dd : String, ∀ v : ℕ,
      measureOK (generateMeasure c dd v) = true) ∧
    (∀ cell : String, cellOK cell = true → cell ≠ "-" →
      ∃ fret, resolveFret cell = some fret ∧ fret ≤ 4) ∧
    (∀ str fret : ℕ, str < 5 → fret ≤ 4 → ∀ sampleRate : ℝ, 495 ≤ sampleRate →
      1 ≤ ksBufLen sampleRate (pitchToFrequency str fret)) := by
  refine ⟨?_, ?_, bufLen_ge_one⟩
  · intro c hc dd v
    rw [generateMeasure_difficulty, generateMeasure_mod12]
    refine generateMeasure_finite_check c hc _ ?_ _ (List.mem_range.mpr ?_)
    · cases h : dd == "easy" <;> simp [h]
    · exact Nat.mod_lt _ (by norm_num)
  · intro cell hok hne
    have hcases : cell = "-" ∨ cell = "h2" ∨ cell = "0" ∨ cell = "1" ∨
        cell = "2" ∨ cell = "3" ∨ cell = "4" := by
      simp only [cellOK, Bool.or_eq_true, beq_iff_eq] at hok
      tauto
    rcases hcases with h | h | h | h | h | h | h
    · exact absurd h hne
    all_goals subst h
    · exact ⟨2, by decide, by decide⟩
    · exact ⟨0, by decide, by decide⟩
    · exact ⟨1, by decide, by decide⟩
    · exact ⟨2, by decide, by decide⟩
    · exact ⟨3, by decide, by decide⟩
    · exact ⟨4, by decide, by decide⟩

/-- Witness for C10 at chord G, difficulty easy, variation 0, cell "2",
string 0, fret 0, sample rate 44100. -/
theorem c10_generated_grid_wellformed_witness :
    ("G" ∈ chordNames ∧ cellOK "2" = true ∧ "2" ≠ "-" ∧
      (0:ℕ) < 5 ∧ (0:ℕ) ≤ 4 ∧ (495:ℝ) ≤ 44100) ∧
    measureOK (generateMeasure "G" "easy" 0) = true ∧
    (∃ fret, resolveFret "2" = some fret ∧ fret ≤ 4) ∧
    1 ≤ ksBufLen 44100 (pitchToFrequency 0 0) := by
  refine ⟨⟨by decide, by decide, by decide, by decide, by decide, by norm_num⟩, ?_, ?_, ?_⟩
  · exact c10_generated_grid_wellformed.1 "G" (by decide) "easy" 0
  · exact c10_generated_grid_wellformed.2.1 "2" (by decide) (by decide)
  · exact c10_generated_grid_wellformed.2.2 0 0 (by decide) (by decide) 44100 (by norm_num)

/- ================================================================
   Engine lemmas: projections of the basic operations.
   ================================================================ -/

theorem getAudioCtx_events (s : Engine) : (getAudioCtx s).events = s.events := by
  unfold getAudioCtx; split <;> rfl

theorem getAudioCtx_nextNoteTime (s : Engine) :
    (getAudioCtx s).nextNoteTime = s.nextNoteTime := by
  unfold getAudioCtx; split <;> rfl

theorem getAudioCtx_currentBpm (s : Engine) :
    (getAudioCtx s).currentBpm = s.currentBpm := by
  unfold getAudioCtx; split <;> rfl

theorem getAudioCtx_currentMeasures (s : Engine) :
    (getAudioCtx s).currentMeasures = s.currentMeasures := by
  unfold getAudioCtx; split <;> rfl

theorem getAudioCtx_currentPlayOpts (s : Engine) :
    (getAudioCtx s).currentPlayOpts = s.currentPlayOpts := by
  unfold getAudioCtx; split <;> rfl

theorem getAudioCtx_sessionStart (s : Engine) :
    (getAudioCtx s).sessionStart = s.sessionStart := by
  unfold getAudioCtx; split <;> rfl

theorem getAudioCtx_timers (s : Engine) : (getAudioCtx s).timers = s.timers := by
  unfold getAudioCtx; split <;> rfl

theorem getAudioCtx_ctxTime (s : Engine) : ctxTime (getAudioCtx s) = ctxTime s := by
  unfold getAudioCtx ctxTime
  split
  · rfl
  · rename_i h
    rw [Option.not_isSome_iff_eq_none] at h
    rw [h]
    rfl

theorem getAudioCtx_isSome (s : Engine) : (getAudioCtx s).ctxStart.isSome := by
  unfold getAudioCtx
  split
  · assumption
  · rfl

theorem getAudioCtx_of_isSome (s : Engine) (h : s.ctxStart.isSome) : getAudioCtx s = s := by
  unfold getAudioCtx
  rw [if_pos h]

theorem stopSong_events (s : Engine) : (stopSong s).events = s.events := by
  obtain ⟨n, cs, bg, mg, ip, bpm, cm, po, mos, nnt, cme, cpo, tid, nid, tms, evs, ss⟩ := s
  cases tid <;> cases cs <;> simp [stopSong]

theorem stopSong_timers_nil (s : Engine) (h : s.timers = []) : (stopSong s).timers = [] := by
  obtain ⟨n, cs, bg, mg, ip, bpm, cm, po, mos, nnt, cme, cpo, tid, nid, tms, evs, ss⟩ := s
  simp only at h
  cases tid <;> cases cs <;> simp [stopSong, h]

theorem nextNote_nextNoteTime (s : Engine) :
    (nextNote s).nextNoteTime = s.nextNoteTime + (1/4) * (60 / s.currentBpm) := by
  unfold nextNote
  dsimp only
  split <;> rfl

theorem nextNote_events (s : Engine) : (nextNote s).events = s.events := by
  unfold nextNote
  dsimp only
  split <;> rfl

theorem nextNote_currentBpm (s : Engine) : (nextNote s).currentBpm = s.currentBpm := by
  unfold nextNote
  dsimp only
  split <;> rfl

theorem nextNote_currentMeasures (s : Engine) :
    (nextNote s).currentMeasures = s.currentMeasures := by
  unfold nextNote
  dsimp only
  split <;> rfl

theorem nextNote_sessionStart (s : Engine) :
    (nextNote s).sessionStart = s.sessionStart := by
  unfold nextNote
  dsimp only
  split <;> rfl

theorem nextNote_wrap (s : Engine) (h : s.currentPos = 15) :
    (nextNote s).currentPos = 0 ∧ (nextNote s).currentMeasure = s.currentMeasure + 1 := by
  unfold nextNote
  dsimp only
  rw [h]
  exact ⟨rfl, rfl⟩

theorem pluckCell_events (measure : Measure) (pos : ℕ) (t : ℚ) (acc : Engine) (str : ℕ) :
    (pluckCell measure pos t acc str).events =
      acc.events ++ pluckCellE measure pos t str := by
  unfold pluckCell pluckCellE
  dsimp only
  split
  · simp
  · split <;> simp

theorem pluckCell_fields (measure : Measure) (pos : ℕ) (t : ℚ) (acc : Engine) (str : ℕ) :
    (pluckCell measure pos t acc str).nextNoteTime = acc.nextNoteTime ∧
    (pluckCell measure pos t acc str).currentBpm = acc.currentBpm ∧
    (pluckCell measure pos t acc str).sessionStart = acc.sessionStart := by
  unfold pluckCell
  dsimp only
  split
  · exact ⟨rfl, rfl, rfl⟩
  · split <;> exact ⟨rfl, rfl, rfl⟩

theorem pluckFold_events (measure : Measure) (pos : ℕ) (t : ℚ) :
    ∀ (l : List ℕ) (acc : Engine),
      (l.foldl (pluckCell measure pos t) acc).events =
        acc.events ++ pluckListE measure pos t l := by
  intro l
  induction l with
  | nil => intro acc; simp [pluckListE]
  | cons x l ih =>
    intro acc
    rw [List.foldl_cons, ih, pluckCell_events, pluckListE, List.append_assoc]

theorem pluckFold_fields (measure : Measure) (pos : ℕ) (t : ℚ) :
    ∀ (l : List ℕ) (acc : Engine),
      (l.foldl (pluckCell measure pos t) acc).nextNoteTime = acc.nextNoteTime ∧
      (l.foldl (pluckCell measure pos t) acc).currentBpm = acc.currentBpm ∧
      (l.foldl (pluckCell measure pos t) acc).sessionStart = acc.sessionStart := by
  intro l
  induction l with
  | nil => intro acc; exact ⟨rfl, rfl, rfl⟩
  | cons x l ih =>
    intro acc
    rw [List.foldl_cons]
    obtain ⟨h1, h2, h3⟩ := ih (pluckCell measure pos t acc x)
    obtain ⟨g1, g2, g3⟩ := pluckCell_fields measure pos t acc x
    exact ⟨h1.trans g1, h2.trans g2, h3.trans g3⟩

theorem scheduleNote_events (s : Engine) (m pos : ℕ) (t : ℚ) :
    (scheduleNote s m pos t).events = s.events ++ scheduleNoteE s m pos t := by
  unfold scheduleNote scheduleNoteE
  dsimp only
  have hc' : ((pos % 4 == 0 && clickEnabledOf (getAudioCtx s).currentPlayOpts) = true) =
      ((pos % 4 == 0 && clickEnabledOf s.currentPlayOpts) = true) := by
    rw [getAudioCtx_currentPlayOpts]
  by_cases hc : (pos % 4 == 0 && clickEnabledOf s.currentPlayOpts) = true
  · rw [if_pos hc, if_pos (hc'.mpr hc : _)]
    dsimp only
    rw [getAudioCtx_currentMeasures, getAudioCtx_currentPlayOpts, getAudioCtx_events]
    by_cases hb : s.currentMeasures.length ≤ m
    · rw [if_pos hb, if_pos hb]
      simp
    · rw [if_neg hb, if_neg hb, pluckFold_events]
      dsimp only
      rw [List.append_assoc]
  · rw [if_neg hc, if_neg (fun h => hc (hc'.mp h))]
    rw [getAudioCtx_currentMeasures]
    by_cases hb : s.currentMeasures.length ≤ m
    · rw [if_pos hb, if_pos hb, getAudioCtx_events]
      simp
    · rw [if_neg hb, if_neg hb, pluckFold_events, getAudioCtx_events]
      simp

theorem scheduleNote_fields (s : Engine) (m pos : ℕ) (t : ℚ) :
    (scheduleNote s m pos t).nextNoteTime = s.nextNoteTime ∧
    (scheduleNote s m pos t).currentBpm = s.currentBpm ∧
    (scheduleNote s m pos t).sessionStart = s.sessionStart := by
  unfold scheduleNote
  dsimp only
  by_cases hc : (pos % 4 == 0 && clickEnabledOf (getAudioCtx s).currentPlayOpts) = true
  · rw [if_pos hc]
    dsimp only
    by_cases hb : (getAudioCtx s).currentMeasures.length ≤ m
    · rw [if_pos hb]
      exact ⟨getAudioCtx_nextNoteTime s, getAudioCtx_currentBpm s, getAudioCtx_sessionStart s⟩
    · rw [if_neg hb]
      obtain ⟨h1, h2, h3⟩ := pluckFold_fields _ pos t (List.range 5) _
      rw [h1, h2, h3]
      exact ⟨getAudioCtx_nextNoteTime s, getAudioCtx_currentBpm s, getAudioCtx_sessionStart s⟩
  · rw [if_neg hc]
    by_cases hb : (getAudioCtx s).currentMeasures.length ≤ m
    · rw [if_pos hb]
      exact ⟨getAudioCtx_nextNoteTime s, getAudioCtx_currentBpm s, getAudioCtx_sessionStart s⟩
    · rw [if_neg hb]
      obtain ⟨h1, h2, h3⟩ := pluckFold_fields _ pos t (List.range 5) _
      rw [h1, h2, h3]
      exact ⟨getAudioCtx_nextNoteTime s, getAudioCtx_currentBpm s, getAudioCtx_sessionStart s⟩

theorem pluckListE_times (measure : Measure) (pos : ℕ) (t : ℚ) :
    ∀ l, ∀ e ∈ pluckListE measure pos t l,
      ∃ midi gain dec, e = Event.pluck midi gain t dec := by
  intro l
  induction l with
  | nil => intro e he; simp [pluckListE] at he
  | cons x l ih =>
    intro e he
    rw [pluckListE] at he
    rcases List.mem_append.mp he with h | h
    · unfold pluckCellE at h
      dsimp only at h
      split at h
      · simp at h
      · split at h
        · simp at h
        · rw [List.mem_singleton] at h
          subst h
          exact ⟨_, _, _, rfl⟩
    · exact ih e h

theorem scheduleNoteE_times (s : Engine) (m pos : ℕ) (t : ℚ) :
    ∀ e ∈ scheduleNoteE s m pos t, soundTimeOf e = some t := by
  intro e he
  unfold scheduleNoteE at he
  rcases List.mem_append.mp he with h | h
  · split at h
    · rw [List.mem_singleton] at h
      subst h
      rfl
    · simp at h
  · split at h
    · simp at h
    · obtain ⟨midi, gain, dec, rfl⟩ := pluckListE_times _ pos t _ e h
      rfl

theorem clicksOf_append (l1 l2 : List Event) :
    clicksOf (l1 ++ l2) = clicksOf l1 ++ clicksOf l2 := by
  unfold clicksOf
  exact List.filter_append _ _

theorem clicksOf_pluckListE (measure : Measure) (pos : ℕ) (t : ℚ) (l : List ℕ) :
    clicksOf (pluckListE measure pos t l) = [] := by
  unfold clicksOf
  rw [List.filter_eq_nil_iff]
  intro e he
  obtain ⟨midi, gain, dec, rfl⟩ := pluckListE_times measure pos t l e he
  simp

theorem clicksOf_scheduleNoteE (s : Engine) (m pos : ℕ) (t : ℚ) :
    clicksOf (scheduleNoteE s m pos t) =
      (if (pos % 4 == 0 && clickEnabledOf s.currentPlayOpts) = true then
        [Event.click t (accentDownbeatOf s.currentPlayOpts && pos / 4 == 0)
          (s.currentPlayOpts.metroPitch.getD 1)]
      else []) := by
  unfold scheduleNoteE
  rw [clicksOf_append]
  split
  · split
    · rfl
    · rw [clicksOf_pluckListE]
      rfl
  · split
    · rfl
    · rw [clicksOf_pluckListE]
      rfl

theorem chain'_le_of_const {l : List ℚ} {c : ℚ} (h : ∀ x ∈ l, x = c) :
    List.Chain' (· ≤ ·) l := by
  induction l with
  | nil => exact List.chain'_nil
  | cons a l ih =>
    cases l with
    | nil => simp
    | cons b l' =>
      rw [List.chain'_cons]
      refine ⟨?_, ih (fun x hx => h x (by simp [hx]))⟩
      rw [h a (by simp), h b (by simp)]

theorem soundTimes_append (l1 l2 : List Event) :
    soundTimes (l1 ++ l2) = soundTimes l1 ++ soundTimes l2 := by
  unfold soundTimes
  exact List.filterMap_append _ _ _

theorem soundTimes_all_eq {E : List Event} {t : ℚ}
    (h : ∀ e ∈ E, soundTimeOf e = some t) : ∀ q ∈ soundTimes E, q = t := by
  intro q hq
  unfold soundTimes at hq
  rw [List.mem_filterMap] at hq
  obtain ⟨e, he, hfe⟩ := hq
  exact Option.some.inj (hfe.symm.trans (h e he))

theorem sessionInv_scheduleNote (s : Engine) (m pos : ℕ) (h : SessionInv s) :
    SessionInv (scheduleNote s m pos s.nextNoteTime) := by
  obtain ⟨hchain, hbound, hlen⟩ := h
  have hev := scheduleNote_events s m pos s.nextNoteTime
  obtain ⟨hnnt, hbpm, hss⟩ := scheduleNote_fields s m pos s.nextNoteTime
  have htimes := scheduleNoteE_times s m pos s.nextNoteTime
  unfold SessionInv
  unfold sessionEvents at hchain hbound ⊢
  rw [hev, hss, hnnt, List.drop_append_of_le_length hlen, soundTimes_append]
  refine ⟨?_, ?_, ?_⟩
  · refine List.Chain'.append hchain
      (chain'_le_of_const (soundTimes_all_eq htimes)) ?_
    intro x hx y hy
    have hxm : x ∈ soundTimes (s.events.drop s.sessionStart) :=
      List.mem_of_getLast?_eq_some hx
    have hym : y ∈ soundTimes (scheduleNoteE s m pos s.nextNoteTime) :=
      List.mem_of_mem_head? hy
    rw [soundTimes_all_eq htimes y hym]
    exact hbound x hxm
  · intro q hq
    rcases List.mem_append.mp hq with hq | hq
    · exact hbound q hq
    · rw [soundTimes_all_eq htimes q hq]
  · rw [List.length_append]
    omega

theorem sessionInv_nextNote (s : Engine) (hbpm : 0 < s.currentBpm) (h : SessionInv s) :
    SessionInv (nextNote s) := by
  obtain ⟨hchain, hbound, hlen⟩ := h
  have hstep : s.nextNoteTime ≤ (nextNote s).nextNoteTime := by
    rw [nextNote_nextNoteTime]
    have hp : 0 < 60 / s.currentBpm := div_pos (by norm_num) hbpm
    linarith
  unfold SessionInv
  unfold sessionEvents at hchain hbound ⊢
  rw [nextNote_events, nextNote_sessionStart]
  exact ⟨hchain, fun q hq => le_trans (hbound q hq) hstep, hlen⟩

theorem sessionInv_schedLoop : ∀ (fuel : ℕ) (s : Engine),
    0 < s.currentBpm → SessionInv s → SessionInv (schedLoop fuel s) := by
  intro fuel
  induction fuel with
  | zero => intro s _ h; exact h
  | succ fuel ih =>
    intro s hbpm h
    rw [schedLoop]
    split
    · split
      · exact h
      · refine ih _ ?_ ?_
        · rw [nextNote_currentBpm,
            (scheduleNote_fields s s.currentMeasure s.currentPos s.nextNoteTime).2.1]
          exact hbpm
        · refine sessionInv_nextNote _ ?_ (sessionInv_scheduleNote s _ _ h)
          rw [(scheduleNote_fields s s.currentMeasure s.currentPos s.nextNoteTime).2.1]
          exact hbpm
    · exact h

theorem schedLoop_arm (fuel : ℕ) (s : Engine) (h : ¬ s.nextNoteTime < ctxTime s + 1/10) :
    schedLoop (fuel + 1) s =
      { s with
          timers := s.timers ++ [⟨s.nextId, s.now + 1/40, TimerKind.wake⟩],
          timerID := some s.nextId,
          nextId := s.nextId + 1 } := by
  rw [schedLoop]
  rw [if_neg h]

theorem updateAudioSettings_fields (a b c : ℚ) (d e : Bool) (s : Engine) :
    (updateAudioSettings a b c d e s).ctxStart = s.ctxStart ∧
    (updateAudioSettings a b c d e s).events = s.events ∧
    (updateAudioSettings a b c d e s).timers = s.timers ∧
    (updateAudioSettings a b c d e s).nextNoteTime = s.nextNoteTime ∧
    (updateAudioSettings a b c d e s).now = s.now ∧
    (updateAudioSettings a b c d e s).isPlaying = s.isPlaying ∧
    (updateAudioSettings a b c d e s).sessionStart = s.sessionStart ∧
    (updateAudioSettings a b c d e s).nextId = s.nextId ∧
    (updateAudioSettings a b c d e s).currentMeasures = s.currentMeasures ∧
    (updateAudioSettings a b c d e s).masterOnStop = s.masterOnStop :=
  ⟨rfl, rfl, rfl, rfl, rfl, rfl, rfl, rfl, rfl, rfl⟩

theorem scheduler_of_ready (s : Engine) (hsome : s.ctxStart.isSome = true)
    (h : ¬ s.nextNoteTime < ctxTime s + 1/10) :
    scheduler s =
      { s with
          timers := s.timers ++ [⟨s.nextId, s.now + 1/40, TimerKind.wake⟩],
          timerID := some s.nextId,
          nextId := s.nextId + 1 } := by
  unfold scheduler
  dsimp only
  rw [getAudioCtx_of_isSome s hsome]
  unfold schedulerFuel
  rw [show 16 * s.currentMeasures.length + 17 = (16 * s.currentMeasures.length + 16) + 1
    by omega]
  exact schedLoop_arm _ s h

theorem getAudioCtx_now (s : Engine) : (getAudioCtx s).now = s.now := by
  unfold getAudioCtx; split <;> rfl

theorem stopSong_now (s : Engine) : (stopSong s).now = s.now := by
  obtain ⟨n, cs, bg, mg, ip, bpm, cm, po, mos, nnt, cme, cpo, tid, nid, tms, evs, ss⟩ := s
  cases tid <;> cases cs <;> simp [stopSong]

theorem playSong_char (tl : List Measure) (bpm : ℚ) (cb : ℕ) (opts : PlayOpts) (s0 : Engine) :
    (playSong tl bpm cb opts s0).events = s0.events ∧
    (playSong tl bpm cb opts s0).sessionStart = s0.events.length ∧
    (playSong tl bpm cb opts s0).isPlaying = true ∧
    ¬ ((playSong tl bpm cb opts s0).nextNoteTime <
        ctxTime (playSong tl bpm cb opts s0) + 1/10) ∧
    (∃ tid, (playSong tl bpm cb opts s0).timerID = some tid ∧
      (playSong tl bpm cb opts s0).timers =
        (if s0.isPlaying then stopSong s0 else s0).timers ++
          [⟨tid, s0.now + 1/40, TimerKind.wake⟩]) := by
  unfold playSong
  dsimp only
  rw [scheduler_of_ready]
  · refine ⟨?_, ?_, rfl, ?_, ?_⟩
    · show (getAudioCtx (if s0.isPlaying then stopSong s0 else s0)).events = s0.events
      rw [getAudioCtx_events]
      split
      · exact stopSong_events s0
      · rfl
    · show (getAudioCtx (if s0.isPlaying then stopSong s0 else s0)).events.length =
        s0.events.length
      rw [getAudioCtx_events]
      split
      · rw [stopSong_events s0]
      · rfl
    · exact lt_irrefl _
    · refine ⟨_, rfl, ?_⟩
      show (getAudioCtx (if s0.isPlaying then stopSong s0 else s0)).timers ++
          [⟨_, (getAudioCtx (if s0.isPlaying then stopSong s0 else s0)).now + 1/40,
            TimerKind.wake⟩] = _
      rw [getAudioCtx_timers, getAudioCtx_now]
      have hn : (if s0.isPlaying then stopSong s0 else s0).now = s0.now := by
        split
        · exact stopSong_now s0
        · rfl
      rw [hn]
  · show (getAudioCtx (if s0.isPlaying then stopSong s0 else s0)).ctxStart.isSome = true
    exact getAudioCtx_isSome _
  · exact lt_irrefl _

theorem playSong_sessionInv (tl : List Measure) (bpm : ℚ) (cb : ℕ) (opts : PlayOpts)
    (s0 : Engine) : SessionInv (playSong tl bpm cb opts s0) := by
  obtain ⟨hev, hss, _, _, _⟩ := playSong_char tl bpm cb opts s0
  unfold SessionInv sessionEvents
  rw [hev, hss, List.drop_length]
  refine ⟨List.chain'_nil, ?_, ?_⟩
  · intro q hq
    simp [soundTimes] at hq
  · exact le_refl _

theorem schedLoop_empty_events : ∀ (fuel : ℕ) (s : Engine), s.currentMeasures = [] →
    (schedLoop fuel s).events = s.events := by
  intro fuel
  cases fuel with
  | zero => intro s _; rfl
  | succ fuel =>
    intro s h
    rw [schedLoop]
    split
    · have hc : s.currentMeasures.length ≤ s.currentMeasure := by
        rw [h]
        simp
      rw [if_pos hc]
    · rfl

theorem scheduler_empty_events (s : Engine) (h : s.currentMeasures = []) :
    (scheduler s).events = s.events := by
  unfold scheduler
  dsimp only
  rw [schedLoop_empty_events _ _ (by rw [getAudioCtx_currentMeasures]; exact h),
    getAudioCtx_events]

/- ================================================================
   Claim theorems for the scheduler engine.
   ================================================================ -/

/-- C3: within a playback session the scheduled sound start times are
monotonically non-decreasing in scheduling order: playSong establishes the
session invariant and every scheduler pass preserves it; and advancing
from position 15 wraps to position 0 of the next measure with the next
event time exactly one sixteenth-note duration (0.25 * 60/BPM seconds)
later at the tempo in effect when the step is computed. -/
theorem c3_times_nondecreasing :
    (∀ s : Engine, 0 < s.currentBpm → SessionInv s → SessionInv (scheduler s)) ∧
    (∀ (tl : List Measure) (bpm : ℚ) (cb : ℕ) (opts : PlayOpts) (s0 : Engine),
      SessionInv (playSong tl bpm cb opts s0)) ∧
    (∀ s : Engine, s.currentPos = 15 →
      (nextNote s).nextNoteTime = s.nextNoteTime + (1/4) * (60 / s.currentBpm) ∧
      (nextNote s).currentPos = 0 ∧
      (nextNote s).currentMeasure = s.currentMeasure + 1) := by
  refine ⟨?_, playSong_sessionInv, ?_⟩
  · intro s hbpm h
    unfold scheduler
    dsimp only
    refine sessionInv_schedLoop _ _ ?_ ?_
    · rw [getAudioCtx_currentBpm]
      exact hbpm
    · obtain ⟨h1, h2, h3⟩ := h
      unfold SessionInv
      unfold sessionEvents at h1 h2 ⊢
      rw [getAudioCtx_events, getAudioCtx_sessionStart, getAudioCtx_nextNoteTime]
      exact ⟨h1, h2, h3⟩
  · intro s h
    exact ⟨nextNote_nextNoteTime s, (nextNote_wrap s h).1, (nextNote_wrap s h).2⟩

/-- Witness for C3 at the page-load engine state, a fresh one-measure
session, and a state at position 15. -/
theorem c3_times_nondecreasing_witness :
    ((0:ℚ) < engineInit.currentBpm ∧ SessionInv engineInit ∧
      ({ engineInit with currentPos := 15 } : Engine).currentPos = 15) ∧
    SessionInv (scheduler engineInit) ∧
    SessionInv (playSong [silentMeasure] 240 1 optsNone engineInit) ∧
    (nextNote { engineInit with currentPos := 15 }).currentPos = 0 := by
  refine ⟨⟨by decide, by decide, rfl⟩, ?_, ?_, ?_⟩
  · exact c3_times_nondecreasing.1 engineInit (by decide) (by decide)
  · exact c3_times_nondecreasing.2.1 [silentMeasure] 240 1 optsNone engineInit
  · exact (c3_times_nondecreasing.2.2 { engineInit with currentPos := 15 } rfl).2.1

/-- C5: with the metronome enabled, one scheduleNote call emits a click at
a position precisely when the position index is a multiple of 4, and the
click is accented precisely when the accent-downbeat flag is set and the
position is 0 (first quarter of the measure). -/
theorem c5_metronome_placement (s : Engine) (m pos : ℕ) (t : ℚ)
    (hen : clickEnabledOf s.currentPlayOpts = true) :
    clicksOf (scheduleNote s m pos t).events =
      clicksOf s.events ++
        (if pos % 4 = 0 then
          [Event.click t (accentDownbeatOf s.currentPlayOpts && pos == 0)
            (s.currentPlayOpts.metroPitch.getD 1)]
        else []) := by
  rw [scheduleNote_events, clicksOf_append, clicksOf_scheduleNoteE]
  congr 1
  by_cases h4 : pos % 4 = 0
  · have hcond : (pos % 4 == 0 && clickEnabledOf s.currentPlayOpts) = true := by
      simp [h4, hen]
    rw [if_pos hcond, if_pos h4]
    have hacc : (pos / 4 == 0) = (pos == 0) := by
      rw [Bool.eq_iff_iff]
      simp only [beq_iff_eq]
      omega
    rw [hacc]
  · have hcond : ¬ ((pos % 4 == 0 && clickEnabledOf s.currentPlayOpts) = true) := by
      simp [h4]
    rw [if_neg hcond, if_neg h4]

/-- Witness for C5 at position 4 of an enabled-metronome engine: one
unaccented click at the scheduled time. -/
theorem c5_metronome_placement_witness :
    clickEnabledOf engineMetro.currentPlayOpts = true ∧
    clicksOf (scheduleNote engineMetro 0 4 (1/10)).events = [Event.click (1/10) false 1] := by
  refine ⟨by decide, ?_⟩
  rw [c5_metronome_placement engineMetro 0 4 (1/10) (by decide)]
  exact of_decide_eq_true (by with_unfolding_all rfl)

/-- C8 (amended): all sound events emitted at one grid step carry exactly
that step's scheduled start time (so simultaneous string events at one
position share a start time), and the scheduled time of successive grid
steps is strictly increasing at any positive tempo; together with the
non-decreasing session invariant this is what the code guarantees in place
of strictly increasing times. -/
theorem c8_ordering_amended :
    (∀ (s : Engine) (m pos : ℕ) (t : ℚ),
      ∀ e ∈ (scheduleNote s m pos t).events.drop s.events.length,
        soundTimeOf e = some t) ∧
    (∀ s : Engine, 0 < s.currentBpm → s.nextNoteTime < (nextNote s).nextNoteTime) := by
  constructor
  · intro s m pos t e he
    rw [scheduleNote_events, List.drop_left] at he
    exact scheduleNoteE_times s m pos t e he
  · intro s hbpm
    rw [nextNote_nextNoteTime]
    have hp : 0 < 60 / s.currentBpm := div_pos (by norm_num) hbpm
    linarith

set_option maxRecDepth 40000 in
/-- C8 as stated is false on the code: a session playing one measure with
open strings 0 and 1 both sounding at position 0 schedules two sounds with
the same start time 0.1, so session event start times are not strictly
increasing. -/
theorem c8_strict_counterexample :
    soundTimes (sessionEvents (run engineInit equalTimesTrace)) = [1/10, 1/10] ∧
    ¬ List.Chain' (· < ·) (soundTimes (sessionEvents (run engineInit equalTimesTrace))) := by
  have heq : soundTimes (sessionEvents (run engineInit equalTimesTrace)) = [1/10, 1/10] :=
    of_decide_eq_true (by with_unfolding_all rfl)
  refine ⟨heq, ?_⟩
  rw [heq]
  intro h
  exact absurd (List.chain'_cons.mp h).1 (lt_irrefl _)

set_option maxRecDepth 40000 in
/-- Witness for C8 (amended) at a concrete two-note column and the
page-load engine state. -/
theorem c8_ordering_amended_witness :
    (Event.pluck 74 (45/100) (1/10) (994/1000) ∈
      (scheduleNote engineTwoNote 0 0 (1/10)).events.drop engineTwoNote.events.length) ∧
    soundTimeOf (Event.pluck 74 (45/100) (1/10) (994/1000)) = some (1/10) ∧
    (0:ℚ) < engineInit.currentBpm ∧
    engineInit.nextNoteTime < (nextNote engineInit).nextNoteTime := by
  refine ⟨of_decide_eq_true (by with_unfolding_all rfl), ?_, by decide, ?_⟩
  · exact c8_ordering_amended.1 engineTwoNote 0 0 (1/10) _
      (of_decide_eq_true (by with_unfolding_all rfl))
  · exact c8_ordering_amended.2 engineInit (by decide)

/-- C4: calling stopPlayback immediately after startPlayback (no wake-up
fired, audio clock not advanced) leaves the event log unchanged — zero
synthesizer invocations — because the synchronous first pass schedules
nothing (the first event time lies at, not within, the look-ahead window)
and stopping cancels the armed wake-up timer, preventing all later
passes. -/
theorem c4_stop_immediately_zero_synth (tl : List Measure) (bpm : ℚ) (cb : ℕ)
    (opts : PlayOpts) (s0 : Engine) (htimers : s0.timers = []) :
    (stopSong (playSong tl bpm cb opts s0)).events = s0.events ∧
    (stopSong (playSong tl bpm cb opts s0)).timers = [] ∧
    ¬ ((playSong tl bpm cb opts s0).nextNoteTime <
        ctxTime (playSong tl bpm cb opts s0) + 1/10) := by
  obtain ⟨hev, hss, hip, hnlt, tid, htid, htim⟩ := playSong_char tl bpm cb opts s0
  refine ⟨(stopSong_events _).trans hev, ?_, hnlt⟩
  have hold : (if s0.isPlaying then stopSong s0 else s0).timers = [] := by
    split
    · exact stopSong_timers_nil s0 htimers
    · exact htimers
  rw [hold] at htim
  unfold stopSong
  dsimp only
  rw [htid]
  dsimp only
  rw [htim]
  split <;> simp

/-- Witness for C4 from the page-load engine state. -/
theorem c4_stop_immediately_zero_synth_witness :
    engineInit.timers = [] ∧
    (stopSong (playSong [silentMeasure] 240 3 optsNone engineInit)).events =
      engineInit.events ∧
    (stopSong (playSong [silentMeasure] 240 3 optsNone engineInit)).timers = [] := by
  have h := c4_stop_immediately_zero_synth [silentMeasure] 240 3 optsNone engineInit rfl
  exact ⟨rfl, h.1, h.2.1⟩

/-- C9: stopSong is idempotent — stopping twice yields exactly the state of
stopping once — and stopping while no session is running changes nothing
observable about playback state (running flag, event log, session position,
next event time, timeline, completion callback). -/
theorem c9_stop_idempotent :
    (∀ s : Engine, stopSong (stopSong s) = stopSong s) ∧
    (∀ s : Engine, s.isPlaying = false →
      (stopSong s).isPlaying = s.isPlaying ∧
      (stopSong s).events = s.events ∧
      (stopSong s).currentMeasure = s.currentMeasure ∧
      (stopSong s).currentPos = s.currentPos ∧
      (stopSong s).nextNoteTime = s.nextNoteTime ∧
      (stopSong s).currentMeasures = s.currentMeasures ∧
      (stopSong s).masterOnStop = s.masterOnStop) := by
  constructor
  · intro s
    obtain ⟨n, cs, bg, mg, ip, bpm, cm, po, mos, nnt, cme, cpo, tid, nid, tms, evs, ss⟩ := s
    cases tid <;> cases cs <;>
      simp [stopSong, List.filter_filter]
  · intro s hidle
    obtain ⟨n, cs, bg, mg, ip, bpm, cm, po, mos, nnt, cme, cpo, tid, nid, tms, evs, ss⟩ := s
    simp only at hidle
    subst hidle
    cases tid <;> cases cs <;> simp [stopSong]

/-- Witness for C9 at the page-load engine state (idle). -/
theorem c9_stop_idempotent_witness :
    engineInit.isPlaying = false ∧
    stopSong (stopSong engineInit) = stopSong engineInit ∧
    (stopSong engineInit).events = engineInit.events := by
  refine ⟨rfl, c9_stop_idempotent.1 engineInit, ?_⟩
  exact (c9_stop_idempotent.2 engineInit rfl).2.1

set_option maxRecDepth 100000 in
/-- C2 as stated is false on the code: playSong with an empty timeline has
no empty-check; it still creates a playback session (running flag set,
audio context created) and the natural-end drain timeout invokes the
completion callback about 3.6 seconds later. -/
theorem c2_empty_timeline_counterexample :
    (playSong [] 240 7 optsNone engineInit).isPlaying = true ∧
    (playSong [] 240 7 optsNone engineInit).ctxStart = some 0 ∧
    (run engineInit emptyTimelineTrace).events = [Event.callback 7 (18/5)] := by
  refine ⟨of_decide_eq_true (by with_unfolding_all rfl),
    of_decide_eq_true (by with_unfolding_all rfl),
    of_decide_eq_true (by with_unfolding_all rfl)⟩

set_option maxRecDepth 100000 in
/-- C2 (amended): startPlayback with an empty timeline creates a session
(the running flag becomes true) but never schedules a sound or metronome
click — the synchronous pass and every scheduler pass on an empty timeline
leave the event log unchanged — and the completion callback is invoked
after the drain delay rather than never (shown on the canonical trace,
where the only event ever logged is the callback at wall time 3.6). -/
theorem c2_empty_timeline_amended :
    (∀ (bpm : ℚ) (cb : ℕ) (opts : PlayOpts) (s0 : Engine),
      (playSong [] bpm cb opts s0).events = s0.events ∧
      (playSong [] bpm cb opts s0).isPlaying = true) ∧
    (∀ s : Engine, s.currentMeasures = [] → (scheduler s).events = s.events) ∧
    (run engineInit emptyTimelineTrace).events = [Event.callback 7 (18/5)] := by
  refine ⟨?_, scheduler_empty_events, of_decide_eq_true (by with_unfolding_all rfl)⟩
  intro bpm cb opts s0
  obtain ⟨hev, _, hip, _, _⟩ := playSong_char [] bpm cb opts s0
  exact ⟨hev, hip⟩

/-- Witness for C2 (amended) at the page-load engine state, whose timeline
is empty. -/
theorem c2_empty_timeline_amended_witness :
    engineInit.currentMeasures = [] ∧
    (scheduler engineInit).events = engineInit.events ∧
    (playSong [] 120 9 optsNone engineInit).events = engineInit.events :=
  ⟨rfl, c2_empty_timeline_amended.2.1 engineInit rfl,
    (c2_empty_timeline_amended.1 120 9 optsNone engineInit).1⟩

set_option maxRecDepth 400000 in
/-- C1 is violated by the code on this trace (the natural-end drain
timeout's id is never stored, so neither an explicit stop nor a
superseding start cancels it): session 1 (callback 1, one silent measure
at 240 BPM) is scheduled to completion, leaving its drain timeout (id 1,
due at wall time 4.6) pending; a second startPlayback supersedes it with
session 2 (callback 2); after session 2 finishes scheduling, its own drain
(id 3, due 6.6) is pending; the stale session-1 drain then fires at wall
time 4.7 while session 2 is running, invoking session 2's callback 1.9
seconds before session 2's natural end and clearing the running flag, so
session 2's own natural-end timeout later invokes nothing.  The full
trace's only callback invocation is callback 2 at wall time 4.7. -/
theorem c1_stale_drain_timer_trace :
    ((run engineInit staleDrainPrefix).events = [] ∧
     (run engineInit staleDrainPrefix).isPlaying = true ∧
     (run engineInit staleDrainPrefix).masterOnStop = some 2 ∧
     (⟨1, 23/5, TimerKind.drain⟩ : PendingTimer) ∈ (run engineInit staleDrainPrefix).timers ∧
     (⟨3, 33/5, TimerKind.drain⟩ : PendingTimer) ∈ (run engineInit staleDrainPrefix).timers) ∧
    (fireTimer (run engineInit staleDrainPrefix) 1).events = [Event.callback 2 (47/10)] ∧
    (run engineInit staleDrainFull).events = [Event.callback 2 (47/10)] ∧
    (run engineInit staleDrainFull).isPlaying = false := by
  refine ⟨⟨of_decide_eq_true (by with_unfolding_all rfl),
    of_decide_eq_true (by with_unfolding_all rfl),
    of_decide_eq_true (by with_unfolding_all rfl),
    of_decide_eq_true (by with_unfolding_all rfl),
    of_decide_eq_true (by with_unfolding_all rfl)⟩,
    of_decide_eq_true (by with_unfolding_all rfl),
    of_decide_eq_true (by with_unfolding_all rfl),
    of_decide_eq_true (by with_unfolding_all rfl)⟩
